import Mathlib

/-!
Verification of the Roastmaster RDP probe-host scripts.

The repository holds five near-duplicate Python scripts implementing one
design: a UDP telemetry agent that multicasts a Syn handshake, waits for an
Ack from the collector, and then unicasts periodic Temp reports.  This file
embeds the protocol session engine of each relevant variant:

* `Main`  — Roastmaster_RDP_Probe_Host_Pi.py (the primary host)
* `Dev13` — RDP_Host_Pi_develop_0-0-13.py
* `Dev9`  — RDP_Host_Pi_develop_0-0-9.py
* `Force` — RDP_Host_Pi_force_feed_0-6.py
* `Tester` — RDP_Host_Pi_tester_0-0-7.py

Modelling conventions:
* JSON values are the inductive `Json`; numeric literals are integers (the
  scripts' protocol-relevant numbers — event types, channels, meta types,
  epoch counters — are integers; wall-clock float epochs are modelled as
  integers since no claim inspects them).
* `printL` renders a `Json` exactly as Python's `json.dumps` with its
  default separators `", "` and `": "` renders the corresponding value.
* `parseValue` is a JSON reader standing for `json.loads`, restricted to
  the integer/string/array/object/null fragment the protocol uses.
* Temperatures are modelled as integer hundredths; `fmt2` renders exactly
  the text `"{:.2f}".format` produces after the float has been rounded
  (the float rounding itself is outside the model).
* Monotonic clock readings and cadence intervals are rationals.
-/

namespace RDP

/-- JSON values in the fragment the RDP scripts exchange. -/
inductive Json where
  | null : Json
  | num : Int → Json
  | str : String → Json
  | arr : List Json → Json
  | obj : List (String × Json) → Json

/-- Lookup in a decoded JSON object, first binding wins (the scripts never
emit or rely on duplicate keys). -/
def jLookup (kvs : List (String × Json)) (k : String) : Option Json :=
  match kvs with
  | [] => none
  | (k', v) :: rest => if k' = k then some v else jLookup rest k

/-- Python's `dict.get` on a decoded packet, after the object check. -/
def Json.get? (j : Json) (k : String) : Option Json :=
  match j with
  | .obj kvs => jLookup kvs k
  | _ => none

/-- Whether a JSON value is a string (the shape the payload field must have
when the payload list is serialized to text before embedding). -/
def Json.isStr : Json → Bool
  | .str _ => true
  | _ => false

/-! ### Decimal rendering of integers (`str(int)` / the digits emitted by
`json.dumps` for an int) -/

/-- The character of a decimal digit. -/
def digitChar (d : Nat) : Char := Char.ofNat (48 + d)

/-- Digit recursion with a fuel bound (structural, so terms evaluate). -/
def natCharsAux : Nat → Nat → List Char
  | 0, _ => []
  | fuel + 1, n =>
    if n < 10 then [digitChar n] else natCharsAux fuel (n / 10) ++ [digitChar (n % 10)]

/-- Decimal digits of a natural number, most significant first. -/
def natChars (n : Nat) : List Char := natCharsAux (n + 1) n

/-- Decimal rendering of an integer, as Python renders an `int`. -/
def intChars (n : Int) : List Char :=
  if n < 0 then '-' :: natChars n.natAbs else natChars n.natAbs

/-- Decimal rendering of an integer as a string. -/
def intStr (n : Int) : String := String.mk (intChars n)

/-- The accumulator fold a digit scanner applies to a run of digit characters. -/
def digitsVal (ds : List Char) : Nat := ds.foldl (fun a c => a * 10 + (c.toNat - 48)) 0

/-! ### Scanning tokens: whitespace, integer literals, string bodies -/

/-- JSON whitespace characters. -/
def isWsChar (c : Char) : Bool := c = ' ' || c = '\n' || c = '\t' || c = '\r'

/-- Skip leading whitespace. -/
def skipWs : List Char → List Char
  | [] => []
  | c :: cs => if isWsChar c then skipWs cs else c :: cs

/-- Scan a (possibly signed) decimal integer literal, maximal munch, as
`json.loads` reads the protocol's integer fields. -/
def parseIntTok (cs : List Char) : Option (Int × List Char) :=
  match cs with
  | [] => none
  | c :: cs' =>
    if c = '-' then
      let ds := cs'.takeWhile Char.isDigit
      if ds.isEmpty then none
      else some (-(digitsVal ds : Int), cs'.dropWhile Char.isDigit)
    else
      let ds := cs.takeWhile Char.isDigit
      if ds.isEmpty then none
      else some ((digitsVal ds : Int), cs.dropWhile Char.isDigit)

/-- The continuation after a printed token must not begin with a digit, or
maximal munch would swallow it (the printer always follows a number with a
separator or a closing bracket, or ends the text). -/
def NumSep (rest : List Char) : Prop := ∀ c, rest.head? = some c → c.isDigit = false

/-- Characters that may sit inside a printed JSON string without escaping. -/
def SafeChars (l : List Char) : Prop := ∀ c ∈ l, c ≠ '"' ∧ c ≠ '\\'

instance (l : List Char) : Decidable (SafeChars l) :=
  List.decidableBAll (fun c => c ≠ '"' ∧ c ≠ '\\') l

/-- A minimal JSON escape table (enough for `json.loads` on the protocol's
texts; `\\uXXXX` escapes are outside the model and make the scan fail). -/
def unescape (c : Char) : Option Char :=
  if c = '"' then some '"'
  else if c = '\\' then some '\\'
  else if c = '/' then some '/'
  else if c = 'n' then some '\n'
  else if c = 't' then some '\t'
  else if c = 'r' then some '\r'
  else none

/-- Scan a string body up to the closing quote, after the opening quote has
been consumed. -/
def parseStrChars : List Char → Option (List Char × List Char)
  | [] => none
  | c :: cs =>
    if c = '"' then some ([], cs)
    else if c = '\\' then
      match cs with
      | [] => none
      | e :: cs' =>
        match unescape e with
        | some ec => (parseStrChars cs').map (fun p => (ec :: p.1, p.2))
        | none => none
    else (parseStrChars cs).map (fun p => (c :: p.1, p.2))

/-! ### The wire text of a JSON value

`printL` reproduces character for character what Python's `json.dumps`
emits for the corresponding value with the default separators `", "` and
`": "` (the encoding the primary host and the 0-0-13, tester and
force-feed variants use). -/

mutual

def printL : Json → List Char
  | .null => ['n', 'u', 'l', 'l']
  | .num n => intChars n
  | .str s => '"' :: s.data ++ ['"']
  | .arr xs => '[' :: printElemsL xs ++ [']']
  | .obj kvs => '{' :: printMembersL kvs ++ ['}']

def printElemsL : List Json → List Char
  | [] => []
  | [x] => printL x
  | x :: xs => printL x ++ ',' :: ' ' :: printElemsL xs

def printMembersL : List (String × Json) → List Char
  | [] => []
  | [(k, v)] => '"' :: k.data ++ '"' :: ':' :: ' ' :: printL v
  | (k, v) :: kvs =>
    '"' :: k.data ++ '"' :: ':' :: ' ' :: printL v ++ ',' :: ' ' :: printMembersL kvs

end

/-- `json.dumps` of a value, as a string. -/
def printJson (j : Json) : String := String.mk (printL j)

/-! ### A JSON reader standing for `json.loads`

Restricted to the fragment the protocol uses: objects, arrays, strings,
integers and `null` (floats, booleans and `\\uXXXX` escapes are outside
the model).  The fuel argument only bounds recursion depth; the reader is
run with fuel exceeding the input length. -/

mutual

def parseValue : Nat → List Char → Option (Json × List Char)
  | 0, _ => none
  | fuel + 1, cs =>
    match skipWs cs with
    | [] => none
    | c :: cs1 =>
      if c = '"' then (parseStrChars cs1).map (fun p => (Json.str (String.mk p.1), p.2))
      else if c = '[' then (parseElems fuel cs1).map (fun p => (Json.arr p.1, p.2))
      else if c = '{' then (parseMembers fuel cs1).map (fun p => (Json.obj p.1, p.2))
      else if c = 'n' then
        match cs1 with
        | 'u' :: 'l' :: 'l' :: cs2 => some (Json.null, cs2)
        | _ => none
      else (parseIntTok (c :: cs1)).map (fun p => (Json.num p.1, p.2))

def parseElems : Nat → List Char → Option (List Json × List Char)
  | 0, _ => none
  | fuel + 1, cs =>
    match skipWs cs with
    | [] => none
    | c :: cs1 =>
      if c = ']' then some ([], cs1)
      else (parseValue fuel (c :: cs1)).bind (fun vc => parseElemsStep fuel vc.1 vc.2)

def parseElemsStep : Nat → Json → List Char → Option (List Json × List Char)
  | 0, _, _ => none
  | fuel + 1, v, cs2 =>
    match skipWs cs2 with
    | [] => none
    | d :: cs3 =>
      if d = ',' then (parseElems fuel cs3).map (fun pr => (v :: pr.1, pr.2))
      else if d = ']' then some ([v], cs3)
      else none

def parseMembers : Nat → List Char → Option (List (String × Json) × List Char)
  | 0, _ => none
  | fuel + 1, cs =>
    match skipWs cs with
    | [] => none
    | c :: cs1 =>
      if c = '}' then some ([], cs1)
      else if c = '"' then
        (parseStrChars cs1).bind (fun kc => parseMembersKV fuel kc.1 kc.2)
      else none

def parseMembersKV : Nat → List Char → List Char → Option (List (String × Json) × List Char)
  | 0, _, _ => none
  | fuel + 1, k, cs2 =>
    match skipWs cs2 with
    | [] => none
    | d :: cs3 =>
      if d = ':' then
        (parseValue fuel cs3).bind (fun vc => parseMembersStep fuel (String.mk k) vc.1 vc.2)
      else none

def parseMembersStep : Nat → String → Json → List Char → Option (List (String × Json) × List Char)
  | 0, _, _, _ => none
  | fuel + 1, k, v, cs4 =>
    match skipWs cs4 with
    | [] => none
    | e :: cs5 =>
      if e = ',' then (parseMembers fuel cs5).map (fun pr => ((k, v) :: pr.1, pr.2))
      else if e = '}' then some ([(k, v)], cs5)
      else none

end

/-- The whole-text reader: one value, then only trailing whitespace. -/
def parseJsonChars (cs : List Char) : Option Json :=
  match parseValue (cs.length + 1) cs with
  | some (j, rest) => if (skipWs rest).isEmpty then some j else none
  | none => none

/-- `json.loads` on a string. -/
def parseJsonStr (s : String) : Option Json := parseJsonChars s.data

/-! ### Print–parse inversion

`Safe` holds of values whose strings are free of characters that
`json.dumps` would escape. -/

mutual

def Safe : Json → Prop
  | .null => True
  | .num _ => True
  | .str s => SafeChars s.data
  | .arr xs => SafeL xs
  | .obj kvs => SafeM kvs

def SafeL : List Json → Prop
  | [] => True
  | x :: xs => Safe x ∧ SafeL xs

def SafeM : List (String × Json) → Prop
  | [] => True
  | (k, v) :: kvs => SafeChars k.data ∧ Safe v ∧ SafeM kvs

end

/-- What must follow a printed value so that scanning it back stops at the
right place: after a bare integer the next character must not be a digit. -/
def FollowOk : Json → List Char → Prop
  | .num _, rest => NumSep rest
  | _, _ => True

/-! ### Protocol constants (identical across the five scripts) -/

def RDP_VERSION_1_0 : String := "RDP_1.0"

def KEY_VERSION : String := "RPVersion"

def KEY_SERIAL : String := "RPSerial"

def KEY_EPOCH : String := "RPEpoch"

def KEY_PAYLOAD : String := "RPPayload"

def KEY_EVENT_TYPE : String := "RPEventType"

def KEY_CHANNEL : String := "RPChannel"

def KEY_VALUE : String := "RPValue"

def KEY_META : String := "RPMetaType"

def EVENT_SYN : Int := 1

def EVENT_ACK : Int := 2

def EVENT_TEMP : Int := 3

def MULTICAST_GROUP : String := "224.0.0.1"

def SERVER_PORT : Nat := 5050

/-- Session states (`HostState.SEARCHING` / `HostState.CONNECTED`). -/
inductive HState where
  | searching
  | connected
deriving DecidableEq, Repr

/-- A transport address: IP text and port. -/
abbrev Addr := String × Nat

/-- One outbound datagram handed to the socket. -/
inductive NetAction where
  | sendSyn (target : Addr) (msg : Json)
  | sendTemps (target : Addr) (msg : Json)

def NetAction.target : NetAction → Addr
  | .sendSyn t _ => t
  | .sendTemps t _ => t

def NetAction.isTemps : NetAction → Bool
  | .sendTemps _ _ => true
  | _ => false

/-- The exceptions that can escape `read_incoming` in the scripts that catch
only `BlockingIOError` and `json.JSONDecodeError`. -/
inductive PyError where
  | unicodeDecodeError
  | attributeError
deriving DecidableEq, Repr

/-- `bytes.decode('utf-8')`: strict UTF-8 decoding of a datagram's bytes
(rejecting truncated, overlong and surrogate sequences). -/
def utf8Decode : List Nat → Option (List Char)
  | [] => some []
  | b :: bs =>
    if b < 0x80 then (utf8Decode bs).map (fun cs => Char.ofNat b :: cs)
    else if b < 0xC2 then none
    else if b < 0xE0 then
      match bs with
      | b2 :: bs' =>
        if 0x80 ≤ b2 ∧ b2 < 0xC0 then
          (utf8Decode bs').map (fun cs => Char.ofNat ((b - 0xC0) * 0x40 + (b2 - 0x80)) :: cs)
        else none
      | [] => none
    else if b < 0xF0 then
      match bs with
      | b2 :: b3 :: bs' =>
        let cp := (b - 0xE0) * 0x1000 + (b2 - 0x80) * 0x40 + (b3 - 0x80)
        if (0x80 ≤ b2 ∧ b2 < 0xC0) ∧ (0x80 ≤ b3 ∧ b3 < 0xC0) ∧
            0x800 ≤ cp ∧ ¬(0xD800 ≤ cp ∧ cp < 0xE000) then
          (utf8Decode bs').map (fun cs => Char.ofNat cp :: cs)
        else none
      | _ => none
    else if b < 0xF5 then
      match bs with
      | b2 :: b3 :: b4 :: bs' =>
        let cp := (b - 0xF0) * 0x40000 + (b2 - 0x80) * 0x1000 + (b3 - 0x80) * 0x40 + (b4 - 0x80)
        if (0x80 ≤ b2 ∧ b2 < 0xC0) ∧ (0x80 ≤ b3 ∧ b3 < 0xC0) ∧ (0x80 ≤ b4 ∧ b4 < 0xC0) ∧
            0x10000 ≤ cp ∧ cp < 0x110000 then
          (utf8Decode bs').map (fun cs => Char.ofNat cp :: cs)
        else none
      | _ => none
    else none

/-- ASCII bytes of a string, for building concrete datagrams. -/
def asciiBytes (s : String) : List Nat := s.data.map Char.toNat

/-- Python's `packet.get(k) == s` for a string literal `s`: true exactly when
the field is present and holds that string. -/
def optIsStr (o : Option Json) (s : String) : Bool :=
  match o with
  | some (Json.str t) => t == s
  | _ => false

/-- Python's `str()` of a decoded JSON field (or of `None` when the field is
missing).  For lists and dicts Python's rendering differs from JSON text in
its quote characters; the scripts only compare the result against a decimal
literal, which no list or dict rendering equals, so those cases are modelled
with the JSON printer. -/
def pyStr : Option Json → String
  | none => "None"
  | some Json.null => "None"
  | some (Json.num n) => intStr n
  | some (Json.str s) => s
  | some (Json.arr xs) => printJson (Json.arr xs)
  | some (Json.obj kvs) => printJson (Json.obj kvs)

/-- `"\x7b:.2f\x7d".format(v)` on the already-rounded reading: sign, integer
digits, a point, and exactly two fractional digits.  `v` is in hundredths. -/
def fmt2 (v : Int) : String :=
  String.mk ((if v < 0 then ['-'] else []) ++ natChars (v.natAbs / 100) ++
    '.' :: [digitChar (v.natAbs % 100 / 10), digitChar (v.natAbs % 100 % 10)])

/-- Sampling outcome delivered by a sensor driver (the spec's
`SensorSource.read`): a reading, or the per-channel failure the caller
catches (`RuntimeError` in the primary host's `read_probes`, any
`Exception` in 0-0-13's `read_sensors`).  A driver returning `None` is
folded into `err` in 0-0-13 (both set only the error flag). -/
inductive Outcome where
  | ok (v : Int)
  | err
deriving DecidableEq, Repr

/-! ## Main — Roastmaster_RDP_Probe_Host_Pi.py

The primary host.  `read_incoming` compares the event-type field against
the string `str(EVENT_ACK)` only; its `try` catches `BlockingIOError`
around everything and `json.JSONDecodeError` around the parse, nothing
else.  `send_syn`/`send_temps` double-encode the payload.  Readings are in
hundredths of a degree (see `fmt2`). -/

namespace Main

def HOST_SERIAL : String := "424242"
def SYNC_SEND_RATE : ℚ := 2
def TEMP_SEND_RATE : ℚ := 1

/-- One entry of `self.probes`. -/
structure Probe where
  channel : Nat
  temp : Option Int
  error : Bool
deriving DecidableEq, Repr

/-- The session state `ProbeHost.__init__` sets up (the probe list depends
on whether the sensor initialisation succeeded, so it is a parameter). -/
structure State where
  state : HState
  send_count : Nat
  server_address : Option Addr
  last_sync_time : ℚ
  last_temp_time : ℚ
  probes : List Probe
deriving DecidableEq, Repr

def initState (probes : List Probe) : State :=
  { state := .searching, send_count := 0, server_address := none,
    last_sync_time := 0, last_temp_time := 0, probes := probes }

/-- `ProbeHost.read_incoming` on one received datagram.  Uncaught
exceptions — `UnicodeDecodeError` from `data.decode('utf-8')` and
`AttributeError` from `packet.get` on a non-dict — surface as `.error`. -/
def read_incoming (raw : List Nat) (addr : String) (st : State) : Except PyError State :=
  match utf8Decode raw with
  | none => .error .unicodeDecodeError
  | some chars =>
    match parseJsonStr (String.mk chars) with
    | none => .ok st
    | some (Json.obj kvs) =>
      if optIsStr (jLookup kvs KEY_VERSION) RDP_VERSION_1_0 &&
          optIsStr (jLookup kvs KEY_SERIAL) HOST_SERIAL &&
          optIsStr (jLookup kvs KEY_EVENT_TYPE) (intStr EVENT_ACK) then
        .ok { st with state := .connected,
                      server_address := some (addr, SERVER_PORT),
                      last_temp_time := 0 }
      else .ok st
    | some _ => .error .attributeError

/-- `ProbeHost.read_probes`: one sample attempt per probe, per-channel
failure isolation (`except RuntimeError` sets the error flag and clears
the reading). -/
def read_probes (read : Nat → Outcome) (ps : List Probe) : List Probe :=
  ps.map fun p =>
    match read p.channel with
    | .ok v => { p with temp := some v, error := false }
    | .err => { p with temp := none, error := true }

/-- The per-probe record of the Temp payload; the guard reproduces the
source's `if not p["error"] or True`, which is identically true. -/
def tempPayload (ps : List Probe) : List Json :=
  ps.filterMap fun p =>
    if p.error = false ∨ True then
      some (Json.obj
        [(KEY_EVENT_TYPE, Json.num EVENT_TEMP),
         (KEY_CHANNEL, Json.num p.channel),
         (KEY_VALUE, Json.str (match p.temp with
           | none => "null"
           | some t => fmt2 t))])
    else none

def synPayload : List Json := [Json.obj [(KEY_EVENT_TYPE, Json.num EVENT_SYN)]]

/-- The Syn datagram: payload serialized to text first (`json.dumps`),
embedded as a string field. -/
def synDatagram (epoch : Nat) : Json :=
  Json.obj
    [(KEY_VERSION, Json.str RDP_VERSION_1_0),
     (KEY_SERIAL, Json.str HOST_SERIAL),
     (KEY_EPOCH, Json.num epoch),
     (KEY_PAYLOAD, Json.str (printJson (Json.arr synPayload)))]

/-- The Temp datagram: same double-encoded payload shape. -/
def tempsDatagram (epoch : Nat) (payload : List Json) : Json :=
  Json.obj
    [(KEY_VERSION, Json.str RDP_VERSION_1_0),
     (KEY_SERIAL, Json.str HOST_SERIAL),
     (KEY_EPOCH, Json.num epoch),
     (KEY_PAYLOAD, Json.str (printJson (Json.arr payload)))]

/-- `ProbeHost.send_syn`: multicasts the handshake and bumps the epoch. -/
def send_syn (st : State) : State × List NetAction :=
  ({ st with send_count := st.send_count + 1 },
   [.sendSyn (MULTICAST_GROUP, SERVER_PORT) (synDatagram st.send_count)])

/-- `ProbeHost.send_temps`: samples, builds the payload, returns early when
it is empty, and sends only when a server address is known. -/
def send_temps (read : Nat → Outcome) (st : State) : State × List NetAction :=
  if (tempPayload (read_probes read st.probes)).isEmpty then
    ({ st with probes := read_probes read st.probes }, [])
  else
    match st.server_address with
    | some a =>
      ({ st with probes := read_probes read st.probes, send_count := st.send_count + 1 },
       [.sendTemps a
         (tempsDatagram st.send_count (tempPayload (read_probes read st.probes)))])
    | none => ({ st with probes := read_probes read st.probes }, [])

/-- One timer pass of `ProbeHost.run` (the body after `read_incoming`):
emit a Syn when Searching and due, a Temp report when Connected and due. -/
def tick (read : Nat → Outcome) (now : ℚ) (st : State) : State × List NetAction :=
  match st.state with
  | .searching =>
    if now - st.last_sync_time > SYNC_SEND_RATE then
      let r := send_syn st
      ({ r.1 with last_sync_time := now }, r.2)
    else (st, [])
  | .connected =>
    if now - st.last_temp_time > TEMP_SEND_RATE then
      let r := send_temps read st
      ({ r.1 with last_temp_time := now }, r.2)
    else (st, [])

end Main

/-! ## Dev13 — RDP_Host_Pi_develop_0-0-13.py

Same session shape as `Main`; differences embedded here: the event-type
check coerces both sides through `str(...)`, records carry a meta-type
field, a failed sample keeps the previous reading (only the error flag is
set), and the value is `"null"` unless the probe read cleanly. -/

namespace Dev13

def HOST_SERIAL : String := "My Probe Host"
def SYNC_SEND_RATE : ℚ := 2
def TEMP_SEND_RATE : ℚ := 1 / 2

structure Probe where
  channel : Nat
  meta_type : Nat
  val : Option Int
  error : Bool
deriving DecidableEq, Repr

structure State where
  state : HState
  send_count : Nat
  server_address : Option Addr
  last_sync_time : ℚ
  last_temp_time : ℚ
  probes : List Probe
deriving DecidableEq, Repr

def initState (probes : List Probe) : State :=
  { state := .searching, send_count := 0, server_address := none,
    last_sync_time := 0, last_temp_time := 0, probes := probes }

/-- `ProbeHost.read_incoming` of 0-0-13: `str(packet.get(KEY_EVENT_TYPE)) ==
str(EVENT_ACK)` accepts the event type as a number or as its string form. -/
def read_incoming (raw : List Nat) (addr : String) (st : State) : Except PyError State :=
  match utf8Decode raw with
  | none => .error .unicodeDecodeError
  | some chars =>
    match parseJsonStr (String.mk chars) with
    | none => .ok st
    | some (Json.obj kvs) =>
      if optIsStr (jLookup kvs KEY_VERSION) RDP_VERSION_1_0 &&
          optIsStr (jLookup kvs KEY_SERIAL) HOST_SERIAL &&
          (pyStr (jLookup kvs KEY_EVENT_TYPE) == intStr EVENT_ACK) then
        .ok { st with state := .connected,
                      server_address := some (addr, SERVER_PORT),
                      last_temp_time := 0 }
      else .ok st
    | some _ => .error .attributeError

/-- `ProbeHost.read_sensors`: a clean reading replaces the value; a `None`
return or an exception only sets the error flag (the stale value stays). -/
def read_sensors (read : Nat → Outcome) (ps : List Probe) : List Probe :=
  ps.map fun p =>
    match read p.channel with
    | .ok v => { p with val := some v, error := false }
    | .err => { p with error := true }

/-- One payload record: value is the two-decimal text only for a clean,
present reading, else the explicit `"null"` marker; every probe appears. -/
def tempPayload (ps : List Probe) : List Json :=
  ps.map fun p =>
    Json.obj
      [(KEY_EVENT_TYPE, Json.num EVENT_TEMP),
       (KEY_CHANNEL, Json.num p.channel),
       (KEY_VALUE, Json.str (match p.error, p.val with
         | false, some v => fmt2 v
         | _, _ => "null")),
       (KEY_META, Json.num p.meta_type)]

def synPayload : List Json := [Json.obj [(KEY_EVENT_TYPE, Json.num EVENT_SYN)]]

def synDatagram (epoch : Nat) : Json :=
  Json.obj
    [(KEY_VERSION, Json.str RDP_VERSION_1_0),
     (KEY_SERIAL, Json.str HOST_SERIAL),
     (KEY_EPOCH, Json.num epoch),
     (KEY_PAYLOAD, Json.str (printJson (Json.arr synPayload)))]

def tempsDatagram (epoch : Nat) (payload : List Json) : Json :=
  Json.obj
    [(KEY_VERSION, Json.str RDP_VERSION_1_0),
     (KEY_SERIAL, Json.str HOST_SERIAL),
     (KEY_EPOCH, Json.num epoch),
     (KEY_PAYLOAD, Json.str (printJson (Json.arr payload)))]

/-- The serialized Temp payload exactly as `send_temps` embeds it:
`json.dumps(payload_list)`. -/
def encodeTempPayload (ps : List Probe) : String := printJson (Json.arr (tempPayload ps))

def send_temps (read : Nat → Outcome) (st : State) : State × List NetAction :=
  if (tempPayload (read_sensors read st.probes)).isEmpty then
    ({ st with probes := read_sensors read st.probes }, [])
  else
    match st.server_address with
    | some a =>
      ({ st with probes := read_sensors read st.probes, send_count := st.send_count + 1 },
       [.sendTemps a
         (tempsDatagram st.send_count (tempPayload (read_sensors read st.probes)))])
    | none => ({ st with probes := read_sensors read st.probes }, [])

end Dev13

/-! ## Dev9 — RDP_Host_Pi_develop_0-0-9.py

The variant that nests the payload structurally: `KEY_PAYLOAD` holds the
raw array, not a serialized string (`send_syn` line 183, `send_temps`
line 238).  Epochs are wall-clock floats and clean values are sent as raw
numbers; both are modelled as integers, which no claim inspects. -/

namespace Dev9

def HOST_SERIAL : String := "My Probe Host"

structure Probe where
  channel : Nat
  meta_type : Nat
  val : Option Int
  error : Bool
deriving DecidableEq, Repr

def synPayload : List Json := [Json.obj [(KEY_EVENT_TYPE, Json.num EVENT_SYN)]]

/-- `send_syn` of 0-0-9: the payload array is embedded structurally. -/
def synDatagram (epoch : Int) : Json :=
  Json.obj
    [(KEY_VERSION, Json.str RDP_VERSION_1_0),
     (KEY_SERIAL, Json.str HOST_SERIAL),
     (KEY_EPOCH, Json.num epoch),
     (KEY_PAYLOAD, Json.arr synPayload)]

/-- One payload record of 0-0-9: a clean reading as a raw number, an error
or missing reading as JSON `null`. -/
def tempPayload (ps : List Probe) : List Json :=
  ps.map fun p =>
    Json.obj
      [(KEY_EVENT_TYPE, Json.num EVENT_TEMP),
       (KEY_CHANNEL, Json.num p.channel),
       (KEY_VALUE, match p.error, p.val with
         | false, some v => Json.num v
         | _, _ => Json.null),
       (KEY_META, Json.num p.meta_type)]

/-- `send_temps` of 0-0-9: the payload list is embedded structurally. -/
def tempsDatagram (epoch : Int) (payload : List Json) : Json :=
  Json.obj
    [(KEY_VERSION, Json.str RDP_VERSION_1_0),
     (KEY_SERIAL, Json.str HOST_SERIAL),
     (KEY_EPOCH, Json.num epoch),
     (KEY_PAYLOAD, Json.arr payload)]

end Dev9

/-! ## Force — RDP_Host_Pi_force_feed_0-6.py

The mock that forces the session into `CONNECTED` after a timeout even
when no Ack arrived, and then sends telemetry to the multicast group as a
fallback when `server_address` is still `None`.  Its fake sine/random
samples come from `math`/`random`; they enter the model as given data, and
the rounded float values are modelled as integers (no claim reads them). -/

namespace Force

def HOST_SERIAL : String := "Mock Probe Host"
def SYNC_SEND_RATE : ℚ := 2
def TEMP_SEND_RATE : ℚ := 1 / 2
def FORCE_START_DELAY : ℚ := 6

structure State where
  state : HState
  server_address : Option Addr
  last_sync_time : ℚ
  last_temp_time : ℚ
  start_time : ℚ
deriving DecidableEq, Repr

def initState (t0 : ℚ) : State :=
  { state := .searching, server_address := none,
    last_sync_time := 0, last_temp_time := 0, start_time := t0 }

/-- One generated fake sample (channel, meta type, rounded value). -/
structure Sample where
  channel : Nat
  meta : Nat
  val : Int
deriving DecidableEq, Repr

def synPayload : List Json := [Json.obj [(KEY_EVENT_TYPE, Json.num EVENT_SYN)]]

def synDatagram (epoch : Int) : Json :=
  Json.obj
    [(KEY_VERSION, Json.str RDP_VERSION_1_0),
     (KEY_SERIAL, Json.str HOST_SERIAL),
     (KEY_EPOCH, Json.num epoch),
     (KEY_PAYLOAD, Json.str (printJson (Json.arr synPayload)))]

def tempPayload (data : List Sample) : List Json :=
  data.map fun s =>
    Json.obj
      [(KEY_EVENT_TYPE, Json.num EVENT_TEMP),
       (KEY_CHANNEL, Json.num s.channel),
       (KEY_VALUE, Json.num s.val),
       (KEY_META, Json.num s.meta)]

def tempsDatagram (epoch : Int) (payload : List Json) : Json :=
  Json.obj
    [(KEY_VERSION, Json.str RDP_VERSION_1_0),
     (KEY_SERIAL, Json.str HOST_SERIAL),
     (KEY_EPOCH, Json.num epoch),
     (KEY_PAYLOAD, Json.str (printJson (Json.arr payload)))]

/-- `MockProbeHost.send_syn`: no state change beyond the send. -/
def send_syn (epoch : Int) (st : State) : State × List NetAction :=
  (st, [.sendSyn (MULTICAST_GROUP, SERVER_PORT) (synDatagram epoch)])

/-- `MockProbeHost.send_temps`: always sends; the target falls back to the
multicast group when no server address was learned (line 168). -/
def send_temps (data : List Sample) (epoch : Int) (st : State) : State × List NetAction :=
  (st, [.sendTemps (st.server_address.getD (MULTICAST_GROUP, SERVER_PORT))
    (tempsDatagram epoch (tempPayload data))])

/-- One timer pass of `MockProbeHost.run`: the forced-connection timeout
(lines 181–183) runs first, then the Searching/Connected branches. -/
def tick (data : List Sample) (epoch : Int) (now : ℚ) (st : State) : State × List NetAction :=
  let st :=
    if st.state = .searching ∧ now - st.start_time > FORCE_START_DELAY then
      { st with state := .connected }
    else st
  match st.state with
  | .searching =>
    if now - st.last_sync_time > SYNC_SEND_RATE then
      let r := send_syn epoch st
      ({ r.1 with last_sync_time := now }, r.2)
    else (st, [])
  | .connected =>
    if now - st.last_temp_time > TEMP_SEND_RATE then
      let r := send_temps data epoch st
      ({ r.1 with last_temp_time := now }, r.2)
    else (st, [])

end Force

/-! ## Tester — RDP_Host_Pi_tester_0-0-7.py

Its `read_incoming` ends in `except Exception`, so every decode failure —
including invalid UTF-8 and a non-dict packet — is swallowed and the
session state is untouched. -/

namespace Tester

def HOST_SERIAL : String := "Mock Probe Host"

structure State where
  state : HState
  server_address : Option Addr
  last_sync_time : ℚ
  last_temp_time : ℚ
deriving DecidableEq, Repr

def initState : State :=
  { state := .searching, server_address := none,
    last_sync_time := 0, last_temp_time := 0 }

/-- `MockProbeHost.read_incoming`: total — all exceptions are caught. -/
def read_incoming (raw : List Nat) (addr : String) (st : State) : State :=
  match utf8Decode raw with
  | none => st
  | some chars =>
    match parseJsonStr (String.mk chars) with
    | none => st
    | some (Json.obj kvs) =>
      if optIsStr (jLookup kvs KEY_VERSION) RDP_VERSION_1_0 &&
          optIsStr (jLookup kvs KEY_SERIAL) HOST_SERIAL &&
          (pyStr (jLookup kvs KEY_EVENT_TYPE) == intStr EVENT_ACK) then
        { st with state := .connected,
                  server_address := some (addr, SERVER_PORT),
                  last_temp_time := 0 }
      else st
    | some _ => st

end Tester

/-! ## The collector-side payload decoder (spec-modelled)

The repository only encodes Temp payloads; no script decodes one.  The
decoder below is therefore modelled from the spec. -/

/-- One decoded Temp payload record: event type, channel id, value and the
semantic meta-type tag (spec §4.2, Telemetry payload). -/
structure TempRec where
  eventType : Int
  channel : Int
  value : Json
  metaType : Int

/-- Modelled from the spec: reading one payload record — each record of a
Temp payload carries an event-type marker, the channel id, a value and the
meta-type tag; any other shape is malformed. -/
def recOfJson (j : Json) : Option TempRec :=
  match j.get? KEY_EVENT_TYPE, j.get? KEY_CHANNEL, j.get? KEY_VALUE, j.get? KEY_META with
  | some (Json.num et), some (Json.num ch), some v, some (Json.num mt) =>
    some ⟨et, ch, v, mt⟩
  | _, _, _, _ => none

/-- Modelled from the spec: a Temp payload decodes record by record; one
malformed record rejects the payload. -/
def decodeRecords : List Json → Option (List TempRec)
  | [] => some []
  | j :: js =>
    match recOfJson j, decodeRecords js with
    | some r, some rs => some (r :: rs)
    | _, _ => none

/-- Modelled from the spec (§4.2 Decoding): the serialized Temp payload
text is parsed as a structured list, rejecting any datagram whose
top-level text is not parseable or is not structurally a list. -/
def decodeTempPayload (s : String) : Option (List TempRec) :=
  match parseJsonStr s with
  | some (Json.arr items) => decodeRecords items
  | _ => none

/-! ## Concrete datagrams used as witnesses and counterexamples -/

/-- A valid Ack for the primary host, event type in string form. -/
def ackTextMain : String :=
  "\x7b\"RPVersion\": \"RDP_1.0\", \"RPSerial\": \"424242\", \"RPEventType\": \"2\"\x7d"

/-- The same Ack with the event type as a native number. -/
def ackNumTextMain : String :=
  "\x7b\"RPVersion\": \"RDP_1.0\", \"RPSerial\": \"424242\", \"RPEventType\": 2\x7d"

/-- A valid Ack for the 0-0-13 host, event type as a native number. -/
def ackNumText13 : String :=
  "\x7b\"RPVersion\": \"RDP_1.0\", \"RPSerial\": \"My Probe Host\", \"RPEventType\": 2\x7d"

/-- A valid Ack for the 0-0-13 host, event type in string form. -/
def ackStrText13 : String :=
  "\x7b\"RPVersion\": \"RDP_1.0\", \"RPSerial\": \"My Probe Host\", \"RPEventType\": \"2\"\x7d"

/-- The session invariant of the spec: no peer address exactly while still
Searching. -/
def Main.Inv (st : Main.State) : Prop :=
  st.server_address = none ↔ st.state = HState.searching

/-! ## Proofs -/

theorem natCharsAux_irrel (f1 : Nat) : ∀ f2 n, n < f1 → n < f2 →
    natCharsAux f1 n = natCharsAux f2 n := by
  induction f1 with
  | zero => intro f2 n h1 _; omega
  | succ g ih =>
    intro f2 n h1 h2
    cases f2 with
    | zero => omega
    | succ g2 =>
      rw [natCharsAux, natCharsAux]
      by_cases h10 : n < 10
      · rw [if_pos h10, if_pos h10]
      · rw [if_neg h10, if_neg h10]
        have hd : n / 10 < n := Nat.div_lt_self (by omega) (by omega)
        rw [ih g2 (n / 10) (by omega) (by omega)]

/-- The characteristic unfolding of `natChars`. -/
theorem natChars_eq (n : Nat) :
    natChars n = if n < 10 then [digitChar n]
      else natChars (n / 10) ++ [digitChar (n % 10)] := by
  rw [natChars, natCharsAux]
  by_cases h10 : n < 10
  · rw [if_pos h10, if_pos h10]
  · rw [if_neg h10, if_neg h10, natChars]
    have hd : n / 10 < n := Nat.div_lt_self (by omega) (by omega)
    rw [natCharsAux_irrel n (n / 10 + 1) (n / 10) (by omega) (by omega)]

theorem natChars_ne_nil (n : Nat) : natChars n ≠ [] := by
  rw [natChars_eq]
  split <;> simp

theorem digitChar_isDigit (d : Nat) (hd : d < 10) : (digitChar d).isDigit = true := by
  interval_cases d <;> decide

theorem digitChar_toNat (d : Nat) (hd : d < 10) : (digitChar d).toNat - 48 = d := by
  interval_cases d <;> decide

theorem natChars_digits (n : Nat) : ∀ c ∈ natChars n, c.isDigit = true := by
  induction n using Nat.strong_induction_on with
  | _ n ih =>
    rw [natChars_eq]
    by_cases h : n < 10
    · rw [if_pos h]
      intro c hc
      simp only [List.mem_singleton] at hc
      subst hc
      exact digitChar_isDigit n h
    · rw [if_neg h]
      intro c hc
      rw [List.mem_append] at hc
      rcases hc with hc | hc
      · exact ih (n / 10) (Nat.div_lt_self (by omega) (by omega)) c hc
      · simp only [List.mem_singleton] at hc
        subst hc
        exact digitChar_isDigit (n % 10) (Nat.mod_lt _ (by omega))

theorem digitsVal_append_digit (xs : List Char) (c : Char) :
    digitsVal (xs ++ [c]) = digitsVal xs * 10 + (c.toNat - 48) := by
  simp [digitsVal, List.foldl_append]

theorem digitsVal_natChars (n : Nat) : digitsVal (natChars n) = n := by
  induction n using Nat.strong_induction_on with
  | _ n ih =>
    rw [natChars_eq]
    by_cases h : n < 10
    · rw [if_pos h]
      show 0 * 10 + ((digitChar n).toNat - 48) = n
      rw [digitChar_toNat n h]
      omega
    · rw [if_neg h, digitsVal_append_digit,
        ih (n / 10) (Nat.div_lt_self (by omega) (by omega)),
        digitChar_toNat (n % 10) (Nat.mod_lt _ (by omega))]
      omega

theorem isDigit_ne_of (c : Char) (h : c.isDigit = true) :
    c ≠ '-' ∧ c ≠ '"' ∧ c ≠ '[' ∧ c ≠ '{' ∧ c ≠ 'n' ∧ c ≠ ']' ∧ c ≠ ',' ∧ c ≠ '}' := by
  refine ⟨?_, ?_, ?_, ?_, ?_, ?_, ?_, ?_⟩ <;> (intro hc; subst hc; simp at h)

theorem skipWs_length (cs : List Char) : (skipWs cs).length ≤ cs.length := by
  induction cs with
  | nil => simp [skipWs]
  | cons c cs ih =>
    rw [skipWs]
    split
    · exact le_trans ih (by simp)
    · simp

theorem skipWs_cons_of_not_ws (c : Char) (cs : List Char) (h : isWsChar c = false) :
    skipWs (c :: cs) = c :: cs := by
  rw [skipWs, h]
  simp

theorem skipWs_space (cs : List Char) : skipWs (' ' :: cs) = skipWs cs := by
  rw [skipWs]
  simp [isWsChar]

theorem isDigit_not_ws (c : Char) (h : c.isDigit = true) : isWsChar c = false := by
  have h1 : c ≠ ' ' := by intro hc; subst hc; simp at h
  have h2 : c ≠ '\n' := by intro hc; subst hc; simp at h
  have h3 : c ≠ '\t' := by intro hc; subst hc; simp at h
  have h4 : c ≠ '\r' := by intro hc; subst hc; simp at h
  simp [isWsChar, h1, h2, h3, h4]

theorem takeWhile_all_append (p : Char → Bool) (xs ys : List Char)
    (hx : ∀ x ∈ xs, p x = true) (hy : ∀ c, ys.head? = some c → p c = false) :
    (xs ++ ys).takeWhile p = xs ∧ (xs ++ ys).dropWhile p = ys := by
  induction xs with
  | nil =>
    simp only [List.nil_append]
    cases ys with
    | nil => simp
    | cons y ys =>
      have := hy y (by simp)
      simp [List.takeWhile, List.dropWhile, this]
  | cons x xs ih =>
    have hpx := hx x (by simp)
    have := ih (fun a ha => hx a (by simp [ha]))
    simp [List.takeWhile, List.dropWhile, hpx, this]

theorem isEmpty_false_of_ne_nil {l : List Char} (h : l ≠ []) : l.isEmpty = false := by
  cases l with
  | nil => exact absurd rfl h
  | cons a l => rfl

theorem parseIntTok_intChars (n : Int) (rest : List Char) (hr : NumSep rest) :
    parseIntTok (intChars n ++ rest) = some (n, rest) := by
  have hdig := natChars_digits n.natAbs
  have htd := takeWhile_all_append Char.isDigit (natChars n.natAbs) rest hdig hr
  have hne : natChars n.natAbs ≠ [] := natChars_ne_nil _
  rw [intChars]
  by_cases hn : n < 0
  · rw [if_pos hn, List.cons_append]
    have e1 : parseIntTok ('-' :: (natChars n.natAbs ++ rest)) =
        if ((natChars n.natAbs ++ rest).takeWhile Char.isDigit).isEmpty then none
        else some (-(digitsVal ((natChars n.natAbs ++ rest).takeWhile Char.isDigit) : Int),
          (natChars n.natAbs ++ rest).dropWhile Char.isDigit) := rfl
    rw [e1, htd.1, htd.2, isEmpty_false_of_ne_nil hne,
      if_neg (by simp : ¬(false = true)), digitsVal_natChars]
    have he : -(n.natAbs : Int) = n := by omega
    rw [he]
  · rw [if_neg hn]
    obtain ⟨d, ds, hds⟩ : ∃ d ds, natChars n.natAbs = d :: ds := by
      cases h : natChars n.natAbs with
      | nil => exact absurd h hne
      | cons d ds => exact ⟨d, ds, rfl⟩
    have hd : d.isDigit = true := hdig d (by rw [hds]; simp)
    rw [hds, List.cons_append]
    have e1 : parseIntTok (d :: (ds ++ rest)) =
        if d = '-' then
          (if ((ds ++ rest).takeWhile Char.isDigit).isEmpty then none
           else some (-(digitsVal ((ds ++ rest).takeWhile Char.isDigit) : Int),
             (ds ++ rest).dropWhile Char.isDigit))
        else
          (if ((d :: (ds ++ rest)).takeWhile Char.isDigit).isEmpty then none
           else some ((digitsVal ((d :: (ds ++ rest)).takeWhile Char.isDigit) : Int),
             (d :: (ds ++ rest)).dropWhile Char.isDigit)) := rfl
    rw [e1, if_neg (isDigit_ne_of d hd).1, ← List.cons_append, ← hds, htd.1, htd.2,
      isEmpty_false_of_ne_nil hne, if_neg (by simp : ¬(false = true)), digitsVal_natChars]
    have he : ((n.natAbs : Nat) : Int) = n := by omega
    rw [he]

theorem parseStrChars_cons (c : Char) (cs : List Char) :
    parseStrChars (c :: cs) =
      if c = '"' then some ([], cs)
      else if c = '\\' then
        match cs with
        | [] => none
        | e :: cs' =>
          match unescape e with
          | some ec => (parseStrChars cs').map (fun p => (ec :: p.1, p.2))
          | none => none
      else (parseStrChars cs).map (fun p => (c :: p.1, p.2)) := by
  rw [parseStrChars.eq_def]

theorem parseStrChars_safe (s : List Char) (hs : SafeChars s) (rest : List Char) :
    parseStrChars (s ++ '"' :: rest) = some (s, rest) := by
  induction s with
  | nil =>
    rw [List.nil_append, parseStrChars_cons, if_pos rfl]
  | cons c cs ih =>
    have hc := hs c (by simp)
    rw [List.cons_append, parseStrChars_cons, if_neg hc.1, if_neg hc.2,
      ih (fun a ha => hs a (by simp [ha]))]
    rfl

theorem followOk_cons (j : Json) (c : Char) (rest : List Char) (h : c.isDigit = false) :
    FollowOk j (c :: rest) := by
  cases j <;> try trivial
  intro d hd
  simp only [List.head?] at hd
  cases hd
  exact h

theorem followOk_nil (j : Json) : FollowOk j [] := by
  cases j <;> try trivial
  intro d hd
  simp [List.head?] at hd

theorem parseValue_cons (f : Nat) (c : Char) (cs1 : List Char) (hws : isWsChar c = false) :
    parseValue (f + 1) (c :: cs1) =
      if c = '"' then (parseStrChars cs1).map (fun p => (Json.str (String.mk p.1), p.2))
      else if c = '[' then (parseElems f cs1).map (fun p => (Json.arr p.1, p.2))
      else if c = '{' then (parseMembers f cs1).map (fun p => (Json.obj p.1, p.2))
      else if c = 'n' then
        (match cs1 with
         | 'u' :: 'l' :: 'l' :: cs2 => some (Json.null, cs2)
         | _ => none)
      else (parseIntTok (c :: cs1)).map (fun p => (Json.num p.1, p.2)) := by
  rw [parseValue, skipWs_cons_of_not_ws c cs1 hws]

theorem parseElems_cons (f : Nat) (c : Char) (cs1 : List Char) (hws : isWsChar c = false) :
    parseElems (f + 1) (c :: cs1) =
      if c = ']' then some ([], cs1)
      else (parseValue f (c :: cs1)).bind (fun vc => parseElemsStep f vc.1 vc.2) := by
  rw [parseElems, skipWs_cons_of_not_ws c cs1 hws]

theorem parseElemsStep_cons (f : Nat) (v : Json) (d : Char) (cs3 : List Char)
    (hws : isWsChar d = false) :
    parseElemsStep (f + 1) v (d :: cs3) =
      if d = ',' then (parseElems f cs3).map (fun pr => (v :: pr.1, pr.2))
      else if d = ']' then some ([v], cs3)
      else none := by
  rw [parseElemsStep, skipWs_cons_of_not_ws d cs3 hws]

theorem parseMembers_cons (f : Nat) (c : Char) (cs1 : List Char) (hws : isWsChar c = false) :
    parseMembers (f + 1) (c :: cs1) =
      if c = '}' then some ([], cs1)
      else if c = '"' then
        (parseStrChars cs1).bind (fun kc => parseMembersKV f kc.1 kc.2)
      else none := by
  rw [parseMembers, skipWs_cons_of_not_ws c cs1 hws]

theorem parseMembersKV_cons (f : Nat) (k : List Char) (d : Char) (cs3 : List Char)
    (hws : isWsChar d = false) :
    parseMembersKV (f + 1) k (d :: cs3) =
      if d = ':' then
        (parseValue f cs3).bind (fun vc => parseMembersStep f (String.mk k) vc.1 vc.2)
      else none := by
  rw [parseMembersKV, skipWs_cons_of_not_ws d cs3 hws]

theorem parseMembersStep_cons (f : Nat) (k : String) (v : Json) (e : Char) (cs5 : List Char)
    (hws : isWsChar e = false) :
    parseMembersStep (f + 1) k v (e :: cs5) =
      if e = ',' then (parseMembers f cs5).map (fun pr => ((k, v) :: pr.1, pr.2))
      else if e = '}' then some ([(k, v)], cs5)
      else none := by
  rw [parseMembersStep, skipWs_cons_of_not_ws e cs5 hws]

theorem parseValue_space (fuel : Nat) (cs : List Char) :
    parseValue fuel (' ' :: cs) = parseValue fuel cs := by
  cases fuel with
  | zero => rfl
  | succ f => rw [parseValue, parseValue, skipWs_space]

theorem parseElems_space (fuel : Nat) (cs : List Char) :
    parseElems fuel (' ' :: cs) = parseElems fuel cs := by
  cases fuel with
  | zero => rfl
  | succ f => rw [parseElems, parseElems, skipWs_space]

theorem parseMembers_space (fuel : Nat) (cs : List Char) :
    parseMembers fuel (' ' :: cs) = parseMembers fuel cs := by
  cases fuel with
  | zero => rfl
  | succ f => rw [parseMembers, parseMembers, skipWs_space]

/-- Shape of a printed integer: its head is a minus sign or a digit, so the
value dispatch falls through to the number scanner. -/
theorem intChars_shape (n : Int) :
    ∃ c cs, intChars n = c :: cs ∧ isWsChar c = false ∧
      c ≠ '"' ∧ c ≠ '[' ∧ c ≠ '{' ∧ c ≠ 'n' := by
  rw [intChars]
  by_cases hn : n < 0
  · rw [if_pos hn]
    exact ⟨'-', _, rfl, by decide, by decide, by decide, by decide, by decide⟩
  · rw [if_neg hn]
    obtain ⟨d, ds, hds⟩ : ∃ d ds, natChars n.natAbs = d :: ds := by
      cases h : natChars n.natAbs with
      | nil => exact absurd h (natChars_ne_nil _)
      | cons d ds => exact ⟨d, ds, rfl⟩
    have hd : d.isDigit = true := natChars_digits _ d (by rw [hds]; simp)
    have hne := isDigit_ne_of d hd
    exact ⟨d, ds, hds, isDigit_not_ws d hd, hne.2.1, hne.2.2.1, hne.2.2.2.1,
      by intro hc; subst hc; simp at hd⟩

/-- The first character of any printed value: never whitespace, never a
separator or a closing bracket, never a colon. -/
theorem printL_head (j : Json) :
    ∃ c cs, printL j = c :: cs ∧ isWsChar c = false ∧
      c ≠ ']' ∧ c ≠ ',' ∧ c ≠ '}' ∧ c ≠ ':' := by
  cases j with
  | null => exact ⟨'n', _, rfl, by decide, by decide, by decide, by decide, by decide⟩
  | num n =>
    rw [printL, intChars]
    by_cases hn : n < 0
    · rw [if_pos hn]
      exact ⟨'-', _, rfl, by decide, by decide, by decide, by decide, by decide⟩
    · rw [if_neg hn]
      obtain ⟨d, ds, hds⟩ : ∃ d ds, natChars n.natAbs = d :: ds := by
        cases h : natChars n.natAbs with
        | nil => exact absurd h (natChars_ne_nil _)
        | cons d ds => exact ⟨d, ds, rfl⟩
      have hd : d.isDigit = true := natChars_digits _ d (by rw [hds]; simp)
      have hne := isDigit_ne_of d hd
      exact ⟨d, ds, hds, isDigit_not_ws d hd, hne.2.2.2.2.2.1, hne.2.2.2.2.2.2.1,
        hne.2.2.2.2.2.2.2, by intro hc; subst hc; simp at hd⟩
  | str s =>
    exact ⟨'"', s.data ++ ['"'], by rw [printL, List.cons_append],
      by decide, by decide, by decide, by decide, by decide⟩
  | arr xs =>
    exact ⟨'[', printElemsL xs ++ [']'], by rw [printL, List.cons_append],
      by decide, by decide, by decide, by decide, by decide⟩
  | obj kvs =>
    exact ⟨'{', printMembersL kvs ++ ['}'], by rw [printL, List.cons_append],
      by decide, by decide, by decide, by decide, by decide⟩

theorem printL_length_pos (j : Json) : 1 ≤ (printL j).length := by
  obtain ⟨c, cs, he, _⟩ := printL_head j
  rw [he]
  simp

mutual

theorem rtValue (j : Json) (hs : Safe j) (fuel : Nat)
    (hf : (printL j).length + 1 ≤ fuel) (rest : List Char) (hr : FollowOk j rest) :
    parseValue fuel (printL j ++ rest) = some (j, rest) := by
  obtain ⟨f, rfl⟩ : ∃ f, fuel = f + 1 := ⟨fuel - 1, by omega⟩
  cases j with
  | null =>
    have e : printL Json.null ++ rest = 'n' :: 'u' :: 'l' :: 'l' :: rest := by
      rw [printL]; rfl
    rw [e, parseValue_cons f 'n' _ (by decide), if_neg (by decide), if_neg (by decide),
      if_neg (by decide), if_pos rfl]
    rfl
  | num n =>
    obtain ⟨c, cs1, he, h0, h1, h2, h3, h4⟩ := intChars_shape n
    have e : printL (Json.num n) = intChars n := by rw [printL]
    rw [e, he, List.cons_append, parseValue_cons f c _ h0, if_neg h1, if_neg h2, if_neg h3,
      if_neg h4, ← List.cons_append, ← he, parseIntTok_intChars n rest hr]
    rfl
  | str s =>
    have hsc : SafeChars s.data := by rw [Safe] at hs; exact hs
    have e : printL (Json.str s) ++ rest = '"' :: (s.data ++ '"' :: rest) := by
      rw [printL]; simp
    rw [e, parseValue_cons f '"' _ (by decide), if_pos rfl,
      parseStrChars_safe s.data hsc rest]
    rfl
  | arr xs =>
    have hsL : SafeL xs := by rw [Safe] at hs; exact hs
    have e : printL (Json.arr xs) ++ rest = '[' :: (printElemsL xs ++ ']' :: rest) := by
      rw [printL]; simp
    have hlen : (printL (Json.arr xs)).length = (printElemsL xs).length + 2 := by
      rw [printL]; simp
    rw [e, parseValue_cons f '[' _ (by decide), if_neg (by decide), if_pos rfl,
      rtElems xs hsL f (by omega) rest]
    rfl
  | obj kvs =>
    have hsM : SafeM kvs := by rw [Safe] at hs; exact hs
    have e : printL (Json.obj kvs) ++ rest = '{' :: (printMembersL kvs ++ '}' :: rest) := by
      rw [printL]; simp
    have hlen : (printL (Json.obj kvs)).length = (printMembersL kvs).length + 2 := by
      rw [printL]; simp
    rw [e, parseValue_cons f '{' _ (by decide), if_neg (by decide), if_neg (by decide),
      if_pos rfl, rtMembers kvs hsM f (by omega) rest]
    rfl

theorem rtElems (xs : List Json) (hs : SafeL xs) (fuel : Nat)
    (hf : (printElemsL xs).length + 2 ≤ fuel) (rest : List Char) :
    parseElems fuel (printElemsL xs ++ ']' :: rest) = some (xs, rest) := by
  obtain ⟨f, rfl⟩ : ∃ f, fuel = f + 1 := ⟨fuel - 1, by omega⟩
  cases xs with
  | nil =>
    have e : printElemsL [] ++ ']' :: rest = ']' :: rest := by rw [printElemsL]; rfl
    rw [e, parseElems_cons f ']' rest (by decide), if_pos rfl]
  | cons x xs' =>
    obtain ⟨hsx, hsxs⟩ : Safe x ∧ SafeL xs' := by rw [SafeL] at hs; exact hs
    obtain ⟨c, cs1, he, h0, hne1, _, _, _⟩ := printL_head x
    have hx1 : 1 ≤ (printL x).length := printL_length_pos x
    cases xs' with
    | nil =>
      have hPE : printElemsL [x] = printL x := by rw [printElemsL]
      have hlen : (printL x).length + 1 ≤ f := by rw [hPE] at hf; omega
      obtain ⟨g, rfl⟩ : ∃ g, f = g + 1 := ⟨f - 1, by omega⟩
      rw [hPE, he, List.cons_append, parseElems_cons (g + 1) c _ h0, if_neg hne1,
        ← List.cons_append, ← he,
        rtValue x hsx (g + 1) hlen (']' :: rest) (followOk_cons x ']' rest (by decide))]
      rfl
    | cons y ys =>
      have hPE : printElemsL (x :: y :: ys) =
          printL x ++ ',' :: ' ' :: printElemsL (y :: ys) := by
        rw [printElemsL]; simp
      have hlenPE : (printElemsL (x :: y :: ys)).length =
          (printL x).length + 2 + (printElemsL (y :: ys)).length := by
        rw [hPE]; simp; omega
      obtain ⟨g, rfl⟩ : ∃ g, f = g + 1 := ⟨f - 1, by omega⟩
      have hVx := rtValue x hsx (g + 1) (by omega)
        (',' :: ' ' :: (printElemsL (y :: ys) ++ ']' :: rest))
        (followOk_cons x ',' _ (by decide))
      have e : printElemsL (x :: y :: ys) ++ ']' :: rest =
          printL x ++ (',' :: ' ' :: (printElemsL (y :: ys) ++ ']' :: rest)) := by
        rw [hPE]; simp
      rw [e, he, List.cons_append, parseElems_cons (g + 1) c _ h0, if_neg hne1,
        ← List.cons_append, ← he, hVx]
      show parseElemsStep (g + 1) x (',' :: ' ' :: (printElemsL (y :: ys) ++ ']' :: rest)) =
        some (x :: y :: ys, rest)
      rw [parseElemsStep_cons g x ',' _ (by decide), if_pos rfl, parseElems_space,
        rtElems (y :: ys) hsxs g (by omega) rest]
      rfl

theorem rtMembers (kvs : List (String × Json)) (hs : SafeM kvs) (fuel : Nat)
    (hf : (printMembersL kvs).length + 2 ≤ fuel) (rest : List Char) :
    parseMembers fuel (printMembersL kvs ++ '}' :: rest) = some (kvs, rest) := by
  obtain ⟨f, rfl⟩ : ∃ f, fuel = f + 1 := ⟨fuel - 1, by omega⟩
  cases kvs with
  | nil =>
    have e : printMembersL [] ++ '}' :: rest = '}' :: rest := by rw [printMembersL]; rfl
    rw [e, parseMembers_cons f '}' rest (by decide), if_pos rfl]
  | cons kv kvs' =>
    obtain ⟨k, v⟩ := kv
    obtain ⟨hsk, hsv, hskvs⟩ : SafeChars k.data ∧ Safe v ∧ SafeM kvs' := by
      rw [SafeM] at hs; exact hs
    have hv1 : 1 ≤ (printL v).length := printL_length_pos v
    cases kvs' with
    | nil =>
      have hPM : printMembersL [(k, v)] = '"' :: k.data ++ '"' :: ':' :: ' ' :: printL v := by
        rw [printMembersL]
      have hlen : (printMembersL [(k, v)]).length =
          k.data.length + 4 + (printL v).length := by
        rw [hPM]; simp; omega
      obtain ⟨g, rfl⟩ : ∃ g, f = g + 1 := ⟨f - 1, by omega⟩
      obtain ⟨g2, rfl⟩ : ∃ g2, g = g2 + 1 := ⟨g - 1, by omega⟩
      have e : printMembersL [(k, v)] ++ '}' :: rest =
          '"' :: (k.data ++ '"' :: (':' :: ' ' :: (printL v ++ '}' :: rest))) := by
        rw [hPM]; simp
      rw [e, parseMembers_cons (g2 + 2) '"' _ (by decide), if_neg (by decide), if_pos rfl,
        parseStrChars_safe k.data hsk _]
      show parseMembersKV (g2 + 2) k.data (':' :: ' ' :: (printL v ++ '}' :: rest)) =
        some ([(k, v)], rest)
      rw [parseMembersKV_cons (g2 + 1) k.data ':' _ (by decide), if_pos rfl,
        parseValue_space,
        rtValue v hsv (g2 + 1) (by omega) ('}' :: rest) (followOk_cons v '}' rest (by decide))]
      show parseMembersStep (g2 + 1) (String.mk k.data) v ('}' :: rest) = some ([(k, v)], rest)
      rw [parseMembersStep_cons g2 _ v '}' rest (by decide), if_neg (by decide), if_pos rfl]
    | cons kv2 kvs'' =>
      have hPM : printMembersL ((k, v) :: kv2 :: kvs'') =
          '"' :: k.data ++ '"' :: ':' :: ' ' :: printL v ++
            ',' :: ' ' :: printMembersL (kv2 :: kvs'') := by
        rw [printMembersL]; simp
      have hlen : (printMembersL ((k, v) :: kv2 :: kvs'')).length =
          k.data.length + 6 + (printL v).length + (printMembersL (kv2 :: kvs'')).length := by
        rw [hPM]; simp; omega
      obtain ⟨g, rfl⟩ : ∃ g, f = g + 1 := ⟨f - 1, by omega⟩
      obtain ⟨g2, rfl⟩ : ∃ g2, g = g2 + 1 := ⟨g - 1, by omega⟩
      have e : printMembersL ((k, v) :: kv2 :: kvs'') ++ '}' :: rest =
          '"' :: (k.data ++ '"' :: (':' :: ' ' ::
            (printL v ++ ',' :: ' ' :: (printMembersL (kv2 :: kvs'') ++ '}' :: rest)))) := by
        rw [hPM]; simp
      rw [e, parseMembers_cons (g2 + 2) '"' _ (by decide), if_neg (by decide), if_pos rfl,
        parseStrChars_safe k.data hsk _]
      show parseMembersKV (g2 + 2) k.data
          (':' :: ' ' :: (printL v ++ ',' :: ' ' :: (printMembersL (kv2 :: kvs'') ++ '}' :: rest))) =
        some ((k, v) :: kv2 :: kvs'', rest)
      rw [parseMembersKV_cons (g2 + 1) k.data ':' _ (by decide), if_pos rfl,
        parseValue_space,
        rtValue v hsv (g2 + 1) (by omega)
          (',' :: ' ' :: (printMembersL (kv2 :: kvs'') ++ '}' :: rest))
          (followOk_cons v ',' _ (by decide))]
      show parseMembersStep (g2 + 1) (String.mk k.data) v
          (',' :: ' ' :: (printMembersL (kv2 :: kvs'') ++ '}' :: rest)) =
        some ((k, v) :: kv2 :: kvs'', rest)
      rw [parseMembersStep_cons g2 _ v ',' _ (by decide), if_pos rfl, parseMembers_space,
        rtMembers (kv2 :: kvs'') hskvs g2 (by omega) rest]
      rfl

end

/-- `json.loads` inverts `json.dumps` on every escape-free value. -/
theorem parseJson_printJson (j : Json) (hs : Safe j) : parseJsonStr (printJson j) = some j := by
  rw [printJson, parseJsonStr]
  show parseJsonChars (printL j) = some j
  rw [parseJsonChars]
  have h := rtValue j hs ((printL j).length + 1) (by omega) [] (followOk_nil j)
  rw [List.append_nil] at h
  rw [h]
  rfl

/-! ## Helper lemmas about the session operations -/

/-- The common Ack-handling step of the primary host's `read_incoming`:
whatever the current state, a datagram that decodes to a record with the
right version, identity and (string-form) Ack event type rebinds the
session to the sender. -/
theorem Main.read_incoming_ack (raw : List Nat) (addr : String) (st : Main.State)
    (chars : List Char) (kvs : List (String × Json))
    (hdec : utf8Decode raw = some chars)
    (hjson : parseJsonStr (String.mk chars) = some (Json.obj kvs))
    (hver : jLookup kvs KEY_VERSION = some (Json.str RDP_VERSION_1_0))
    (hser : jLookup kvs KEY_SERIAL = some (Json.str Main.HOST_SERIAL))
    (hack : jLookup kvs KEY_EVENT_TYPE = some (Json.str (intStr EVENT_ACK))) :
    Main.read_incoming raw addr st =
      .ok { st with state := .connected,
                    server_address := some (addr, SERVER_PORT),
                    last_temp_time := 0 } := by
  rw [Main.read_incoming, hdec]
  simp only [hjson, hver, hser, hack, optIsStr]
  rw [if_pos (by simp)]

/-- Every Temp action a `Main.tick` emits targets the stored peer address. -/
theorem Main.tick_temps_target (read : Nat → Outcome) (now : ℚ) (st : Main.State)
    (t : Addr) (m : Json) (hmem : NetAction.sendTemps t m ∈ (Main.tick read now st).2) :
    st.server_address = some t := by
  rw [Main.tick] at hmem
  split at hmem
  · split at hmem
    · simp [Main.send_syn] at hmem
    · simp at hmem
  · split at hmem
    · simp only [Main.send_temps] at hmem
      split at hmem
      · simp at hmem
      · split at hmem
        · rename_i a heq
          simp only [List.mem_singleton, NetAction.sendTemps.injEq] at hmem
          rw [heq, hmem.1]
        · simp at hmem
    · simp at hmem

/-- `Main.tick` never changes the session state or the peer address. -/
theorem Main.tick_state_eq (read : Nat → Outcome) (now : ℚ) (st : Main.State) :
    (Main.tick read now st).1.state = st.state ∧
    (Main.tick read now st).1.server_address = st.server_address := by
  rw [Main.tick]
  split
  · rename_i hst
    split
    · simp [Main.send_syn, hst]
    · simp [hst]
  · rename_i hst
    split
    · simp only [Main.send_temps]
      split
      · simp [hst]
      · split <;> simp [hst]
    · simp [hst]

theorem Main.Inv.transport {st st' : Main.State}
    (ha : st'.server_address = st.server_address) (hs : st'.state = st.state)
    (h : Main.Inv st) : Main.Inv st' := by
  rw [Main.Inv, ha, hs]
  exact h

/-- `tempPayload` keeps every probe: the source's guard is identically true,
so the filter is a map. -/
theorem Main.tempPayload_eq_map (ps : List Main.Probe) :
    Main.tempPayload ps = ps.map (fun p =>
      Json.obj [(KEY_EVENT_TYPE, Json.num EVENT_TEMP),
                (KEY_CHANNEL, Json.num p.channel),
                (KEY_VALUE, Json.str (match p.temp with
                  | none => "null"
                  | some t => fmt2 t))]) := by
  rw [Main.tempPayload]
  induction ps with
  | nil => rfl
  | cons p ps ih =>
    rw [List.filterMap_cons, if_pos (Or.inr trivial), List.map_cons, ← ih]

/-- Shape of a formatted reading: some prefix without a point, then a
point and exactly two digits. -/
theorem fmt2_shape (v : Int) :
    ∃ pre d1 d2, fmt2 v = String.mk (pre ++ ['.', d1, d2]) ∧
      ('.' ∈ pre → False) ∧ d1.isDigit = true ∧ d2.isDigit = true := by
  refine ⟨(if v < 0 then ['-'] else []) ++ natChars (v.natAbs / 100),
    digitChar (v.natAbs % 100 / 10), digitChar (v.natAbs % 100 % 10), ?_, ?_, ?_, ?_⟩
  · rw [fmt2]
  · intro hmem
    rw [List.mem_append] at hmem
    rcases hmem with h | h
    · split at h
      · simp only [List.mem_singleton] at h
        exact absurd h (by decide)
      · simp at h
    · have := natChars_digits _ _ h
      simp at this
  · exact digitChar_isDigit _ (by omega)
  · exact digitChar_isDigit _ (by omega)

theorem isDigit_safe (c : Char) (h : c.isDigit = true) : c ≠ '"' ∧ c ≠ '\\' :=
  ⟨(isDigit_ne_of c h).2.1, by intro hc; subst hc; simp at h⟩

/-- The formatted reading never needs escaping. -/
theorem fmt2_safe (v : Int) : SafeChars (fmt2 v).data := by
  intro c hc
  have hc' : c ∈ (if v < 0 then ['-'] else []) ++ (natChars (v.natAbs / 100) ++
      '.' :: [digitChar (v.natAbs % 100 / 10), digitChar (v.natAbs % 100 % 10)]) := by
    have e : (fmt2 v).data = (if v < 0 then ['-'] else []) ++ natChars (v.natAbs / 100) ++
        '.' :: [digitChar (v.natAbs % 100 / 10), digitChar (v.natAbs % 100 % 10)] := rfl
    rw [e, List.append_assoc] at hc
    exact hc
  rw [List.mem_append] at hc'
  rcases hc' with h | h
  · split at h
    · simp only [List.mem_singleton] at h
      subst h
      exact ⟨by decide, by decide⟩
    · simp at h
  · rw [List.mem_append] at h
    rcases h with h | h
    · exact isDigit_safe c (natChars_digits _ c h)
    · simp only [List.mem_cons, List.mem_singleton] at h
      rcases h with h | h | h
      · subst h
        exact ⟨by decide, by decide⟩
      · subst h
        exact isDigit_safe _ (digitChar_isDigit _ (by omega))
      · rcases h with h | h
        · subst h
          exact isDigit_safe _ (digitChar_isDigit _ (by omega))
        · simp at h

/-- Every 0-0-13 Temp payload is escape-free, so the full print–parse round
trip applies to it. -/
theorem dev13_payload_safe (ps : List Dev13.Probe) : SafeL (Dev13.tempPayload ps) := by
  induction ps with
  | nil =>
    rw [show Dev13.tempPayload [] = [] from rfl, SafeL]
    trivial
  | cons p ps ih =>
    have e : Dev13.tempPayload (p :: ps) =
        Json.obj
          [(KEY_EVENT_TYPE, Json.num EVENT_TEMP),
           (KEY_CHANNEL, Json.num p.channel),
           (KEY_VALUE, Json.str (match p.error, p.val with
             | false, some v => fmt2 v
             | _, _ => "null")),
           (KEY_META, Json.num p.meta_type)] :: Dev13.tempPayload ps := rfl
    rw [e, SafeL]
    refine ⟨?_, ih⟩
    rw [Safe, SafeM]
    refine ⟨by decide, by rw [Safe]; trivial, ?_⟩
    rw [SafeM]
    refine ⟨by decide, by rw [Safe]; trivial, ?_⟩
    rw [SafeM]
    refine ⟨by decide, ?_, ?_⟩
    · rw [Safe]
      cases p.error with
      | true => cases p.val <;> exact (by decide : SafeChars ("null".data))
      | false =>
        cases p.val with
        | none => exact (by decide : SafeChars ("null".data))
        | some v => exact fmt2_safe v
    · rw [SafeM]
      refine ⟨by decide, by rw [Safe]; trivial, by rw [SafeM]; trivial⟩

/-! ## The claims -/

/-- C1: while the session is Searching, a datagram received by the primary
host that decodes to a record with the protocol version, the configured
identity and the Ack event type moves the session to Connected, records
`peerAddress` as the pair (datagram source IP, configured listening port)
taken from the transport source address, and resets the last-report
timestamp to the sentinel 0. -/
theorem C1_ack_transition (raw : List Nat) (addr : String) (st : Main.State)
    (chars : List Char) (kvs : List (String × Json))
    (hst : st.state = .searching)
    (hdec : utf8Decode raw = some chars)
    (hjson : parseJsonStr (String.mk chars) = some (Json.obj kvs))
    (hver : jLookup kvs KEY_VERSION = some (Json.str RDP_VERSION_1_0))
    (hser : jLookup kvs KEY_SERIAL = some (Json.str Main.HOST_SERIAL))
    (hack : jLookup kvs KEY_EVENT_TYPE = some (Json.str (intStr EVENT_ACK))) :
    Main.read_incoming raw addr st =
      .ok { st with state := .connected,
                    server_address := some (addr, SERVER_PORT),
                    last_temp_time := 0 } :=
  Main.read_incoming_ack raw addr st chars kvs hdec hjson hver hser hack

/-- C1 witness: the Scenario-B Ack datagram from 10.0.0.5. -/
theorem C1_ack_transition_witness :
    Main.read_incoming (asciiBytes ackTextMain) "10.0.0.5"
      (Main.initState [⟨1, none, false⟩]) =
      .ok { Main.initState [⟨1, none, false⟩] with
            state := .connected,
            server_address := some ("10.0.0.5", SERVER_PORT),
            last_temp_time := 0 } :=
  C1_ack_transition (asciiBytes ackTextMain) "10.0.0.5" (Main.initState [⟨1, none, false⟩])
    ackTextMain.data
    [(KEY_VERSION, Json.str "RDP_1.0"), (KEY_SERIAL, Json.str "424242"),
     (KEY_EVENT_TYPE, Json.str "2")]
    rfl rfl rfl rfl rfl rfl

/-- C3: the claim that observeIncoming never raises matches the design's
intent — the tester variant's catch-all swallows everything — but the
primary host catches only `BlockingIOError` and `json.JSONDecodeError`, so
a datagram whose bytes are not valid UTF-8 (here the single byte 0xFF)
raises `UnicodeDecodeError` out of `read_incoming` and would crash the
driver loop. -/
theorem C3_decode_crash :
    Main.read_incoming [255] "10.0.0.5" (Main.initState []) =
      .error PyError.unicodeDecodeError ∧
    Tester.read_incoming [255] "10.0.0.5" Tester.initState = Tester.initState :=
  ⟨rfl, rfl⟩

/-- C4 counterexample: in the primary host a datagram whose event-type field
is the native number 2 does not trigger the Searching-to-Connected
transition — `read_incoming` compares the field against the string form
only, so the session stays Searching. -/
theorem C4_counterexample :
    Main.read_incoming (asciiBytes ackNumTextMain) "10.0.0.5" (Main.initState []) =
      .ok (Main.initState []) ∧
    (Main.initState []).state = HState.searching :=
  ⟨rfl, rfl⟩

/-- C4 (amended): the develop 0-0-13 variant (like the tester and force-feed
mocks) coerces both sides of the event-type comparison through `str(...)`,
so a matching datagram triggers the transition both when the field is the
native number 2 and when it is the string "2"; the primary host accepts
only the string form. -/
theorem C4_str_coercion (raw : List Nat) (addr : String) (st : Dev13.State)
    (chars : List Char) (kvs : List (String × Json)) (et : Json)
    (hst : st.state = .searching)
    (hdec : utf8Decode raw = some chars)
    (hjson : parseJsonStr (String.mk chars) = some (Json.obj kvs))
    (hver : jLookup kvs KEY_VERSION = some (Json.str RDP_VERSION_1_0))
    (hser : jLookup kvs KEY_SERIAL = some (Json.str Dev13.HOST_SERIAL))
    (het : jLookup kvs KEY_EVENT_TYPE = some et)
    (hform : et = Json.num 2 ∨ et = Json.str "2") :
    Dev13.read_incoming raw addr st =
      .ok { st with state := .connected,
                    server_address := some (addr, SERVER_PORT),
                    last_temp_time := 0 } := by
  rw [Dev13.read_incoming, hdec]
  simp only [hjson, hver, hser, het, optIsStr]
  rcases hform with h | h <;> subst h <;> rw [if_pos (by simp [pyStr]; rfl)]

/-- C4 witness: both event-type forms, sent to the 0-0-13 host. -/
theorem C4_str_coercion_witness :
    Dev13.read_incoming (asciiBytes ackNumText13) "10.0.0.5" (Dev13.initState []) =
      .ok { Dev13.initState [] with
            state := .connected, server_address := some ("10.0.0.5", SERVER_PORT),
            last_temp_time := 0 } ∧
    Dev13.read_incoming (asciiBytes ackStrText13) "10.0.0.5" (Dev13.initState []) =
      .ok { Dev13.initState [] with
            state := .connected, server_address := some ("10.0.0.5", SERVER_PORT),
            last_temp_time := 0 } :=
  ⟨C4_str_coercion (asciiBytes ackNumText13) "10.0.0.5" (Dev13.initState [])
      ackNumText13.data
      [(KEY_VERSION, Json.str "RDP_1.0"), (KEY_SERIAL, Json.str "My Probe Host"),
       (KEY_EVENT_TYPE, Json.num 2)] (Json.num 2)
      rfl rfl rfl rfl rfl rfl (Or.inl rfl),
   C4_str_coercion (asciiBytes ackStrText13) "10.0.0.5" (Dev13.initState [])
      ackStrText13.data
      [(KEY_VERSION, Json.str "RDP_1.0"), (KEY_SERIAL, Json.str "My Probe Host"),
       (KEY_EVENT_TYPE, Json.str "2")] (Json.str "2")
      rfl rfl rfl rfl rfl rfl (Or.inr rfl)⟩

/-- C5 (amended): in the primary host and the 0-0-13 variant, every outbound
datagram (Syn or Temp) carries its payload as a JSON-encoded string — the
payload list is serialized to text first and embedded as a string field;
the 0-0-9 variant instead nests the payload structurally. -/
theorem C5_payload_string (epoch : Nat) (payload : List Json) :
    (Main.synDatagram epoch).get? KEY_PAYLOAD =
      some (Json.str (printJson (Json.arr Main.synPayload))) ∧
    (Main.tempsDatagram epoch payload).get? KEY_PAYLOAD =
      some (Json.str (printJson (Json.arr payload))) ∧
    (Dev13.synDatagram epoch).get? KEY_PAYLOAD =
      some (Json.str (printJson (Json.arr Dev13.synPayload))) ∧
    (Dev13.tempsDatagram epoch payload).get? KEY_PAYLOAD =
      some (Json.str (printJson (Json.arr payload))) :=
  ⟨rfl, rfl, rfl, rfl⟩

/-- C5 counterexample: develop 0-0-9 embeds the payload structurally — the
payload field of its Syn and Temp datagrams is a raw JSON array, not a
string. -/
theorem C5_counterexample :
    (Dev9.synDatagram 0).get? KEY_PAYLOAD = some (Json.arr Dev9.synPayload) ∧
    ((Dev9.synDatagram 0).get? KEY_PAYLOAD).map Json.isStr = some false ∧
    (Dev9.tempsDatagram 0 (Dev9.tempPayload [⟨1, 3000, some 2153, false⟩])).get?
        KEY_PAYLOAD =
      some (Json.arr (Dev9.tempPayload [⟨1, 3000, some 2153, false⟩])) ∧
    ((Dev9.tempsDatagram 0 (Dev9.tempPayload [⟨1, 3000, some 2153, false⟩])).get?
        KEY_PAYLOAD).map Json.isStr = some false :=
  ⟨rfl, rfl, rfl, rfl⟩

/-- C2 (amended): in the primary host the invariant — peerAddress is None
iff the session is Searching — holds initially and is preserved by
read_incoming and by the driver-loop tick, and every emitted report
targets exactly the stored peer address (so never the multicast group).
The force-feed mock violates the claim as stated: see the counterexample. -/
theorem C2_inv_main :
    (∀ ps, Main.Inv (Main.initState ps)) ∧
    (∀ raw addr st st', Main.Inv st → Main.read_incoming raw addr st = .ok st' →
      Main.Inv st') ∧
    (∀ read now st, Main.Inv st → Main.Inv (Main.tick read now st).1) ∧
    (∀ read now st t m, NetAction.sendTemps t m ∈ (Main.tick read now st).2 →
      st.server_address = some t) := by
  refine ⟨?_, ?_, ?_, ?_⟩
  · intro ps
    simp [Main.Inv, Main.initState]
  · intro raw addr st st' hInv h
    rw [Main.read_incoming] at h
    split at h
    · exact Except.noConfusion h
    · split at h
      · simp only [Except.ok.injEq] at h
        subst h
        exact hInv
      · split at h
        · simp only [Except.ok.injEq] at h
          subst h
          simp [Main.Inv]
        · simp only [Except.ok.injEq] at h
          subst h
          exact hInv
      · exact Except.noConfusion h
  · intro read now st hInv
    obtain ⟨hs, ha⟩ := Main.tick_state_eq read now st
    exact Main.Inv.transport ha hs hInv
  · intro read now st t m hmem
    exact Main.tick_temps_target read now st t m hmem

/-- C2 witness: the invariant holds in a fresh session and after one tick. -/
theorem C2_inv_main_witness :
    Main.Inv (Main.initState []) ∧
    Main.Inv (Main.tick (fun _ => Outcome.err) 3 (Main.initState [])).1 :=
  ⟨C2_inv_main.1 [],
   C2_inv_main.2.2.1 (fun _ => Outcome.err) 3 (Main.initState []) (C2_inv_main.1 [])⟩

/-- C2 counterexample: one pass of the force-feed mock's loop at 7 seconds
with no Ack ever received forces state Connected while peerAddress is still
None, and the report it emits in the same pass targets the multicast
group — the invariant and the no-multicast rule both fail. -/
theorem C2_counterexample :
    (Force.tick [] 0 7 (Force.initState 0)).1.state = HState.connected ∧
    (Force.tick [] 0 7 (Force.initState 0)).1.server_address = none ∧
    (Force.tick [] 0 7 (Force.initState 0)).2.map NetAction.target =
      [(MULTICAST_GROUP, SERVER_PORT)] := by
  refine ⟨?_, ?_, ?_⟩ <;>
    norm_num [Force.tick, Force.initState, Force.send_temps, Force.FORCE_START_DELAY,
      Force.TEMP_SEND_RATE, NetAction.target]

/-- C7: one driver-loop timer pass of the primary host emits at most one
outbound action, and never a Temp report while the session is Searching. -/
theorem C7_single_action (read : Nat → Outcome) (now : ℚ) (st : Main.State) :
    (Main.tick read now st).2.length ≤ 1 ∧
    (st.state = HState.searching →
      ∀ a ∈ (Main.tick read now st).2, a.isTemps = false) := by
  constructor
  · rw [Main.tick]
    split
    · split
      · simp [Main.send_syn]
      · simp
    · split
      · simp only [Main.send_temps]
        split
        · simp
        · split <;> simp
      · simp
  · intro hst a ha
    rw [Main.tick] at ha
    split at ha
    · split at ha
      · simp [Main.send_syn] at ha
        rw [ha]
        rfl
      · simp at ha
    · rename_i hconn
      rw [hst] at hconn
      exact absurd hconn (by decide)

/-- C7 witness: a Searching session, timer due. -/
theorem C7_single_action_witness :
    (Main.tick (fun _ => Outcome.err) 3 (Main.initState [])).2.length ≤ 1 ∧
    (∀ a ∈ (Main.tick (fun _ => Outcome.err) 3 (Main.initState [])).2,
      a.isTemps = false) :=
  ⟨(C7_single_action (fun _ => Outcome.err) 3 (Main.initState [])).1,
   (C7_single_action (fun _ => Outcome.err) 3 (Main.initState [])).2 rfl⟩

/-- C8: a read failure on one channel is caught per channel — that probe is
marked error with its reading cleared and its payload record carries the
"null" marker — while the cycle goes on: the probe list keeps its length,
any other channel's clean reading lands untouched, and the session state is
unchanged by the reporting tick. -/
theorem C8_per_channel_isolation (read : Nat → Outcome) (ps : List Main.Probe)
    (i : Nat) (hi : i < ps.length) (now : ℚ) (st : Main.State) :
    (Main.read_probes read ps).length = ps.length ∧
    (read ps[i].channel = .err →
      (Main.read_probes read ps)[i]? =
        some { ps[i] with temp := none, error := true } ∧
      (Main.tempPayload (Main.read_probes read ps))[i]? =
        some (Json.obj
          [(KEY_EVENT_TYPE, Json.num EVENT_TEMP),
           (KEY_CHANNEL, Json.num (ps[i].channel)),
           (KEY_VALUE, Json.str "null")])) ∧
    (∀ v, read ps[i].channel = .ok v →
      (Main.read_probes read ps)[i]? =
        some { ps[i] with temp := some v, error := false }) ∧
    (Main.tick read now st).1.state = st.state := by
  have hg : ps[i]? = some ps[i] := List.getElem?_eq_getElem hi
  refine ⟨by simp [Main.read_probes], ?_, ?_, (Main.tick_state_eq read now st).1⟩
  · intro herr
    constructor
    · rw [Main.read_probes, List.getElem?_map, hg]
      simp [herr]
    · rw [Main.tempPayload_eq_map, List.getElem?_map, Main.read_probes,
        List.getElem?_map, hg]
      simp [herr]
  · intro v hok
    rw [Main.read_probes, List.getElem?_map, hg]
    simp [hok]

/-- C8 witness: two channels, channel 1 errors, channel 2 reads 150.00. -/
theorem C8_per_channel_isolation_witness :
    (Main.read_probes (fun c => if c = 1 then Outcome.err else Outcome.ok 15000)
        [⟨1, none, false⟩, ⟨2, none, false⟩]).length = 2 ∧
    ((Main.read_probes (fun c => if c = 1 then Outcome.err else Outcome.ok 15000)
        [⟨1, none, false⟩, ⟨2, none, false⟩])[0]? =
      some ⟨1, none, true⟩ ∧
    (Main.tempPayload (Main.read_probes
        (fun c => if c = 1 then Outcome.err else Outcome.ok 15000)
        [⟨1, none, false⟩, ⟨2, none, false⟩]))[0]? =
      some (Json.obj
        [(KEY_EVENT_TYPE, Json.num EVENT_TEMP),
         (KEY_CHANNEL, Json.num 1),
         (KEY_VALUE, Json.str "null")])) := by
  have h := C8_per_channel_isolation
    (fun c => if c = 1 then Outcome.err else Outcome.ok 15000)
    [⟨1, none, false⟩, ⟨2, none, false⟩] 0 (by decide) 0 (Main.initState [])
  exact ⟨h.1, h.2.1 rfl⟩

/-- C6: the primary host's reporting cycle keeps one payload record per
configured channel, in order, regardless of sampling success: a clean read
is emitted as its two-fractional-digit decimal text and a failed read as
the explicit "null" marker — no channel is ever omitted. -/
theorem C6_channel_completeness (read : Nat → Outcome) (ps : List Main.Probe)
    (i : Nat) (hi : i < ps.length) :
    (Main.tempPayload (Main.read_probes read ps)).length = ps.length ∧
    (∀ v, read ps[i].channel = .ok v →
      (Main.tempPayload (Main.read_probes read ps))[i]? =
        some (Json.obj
          [(KEY_EVENT_TYPE, Json.num EVENT_TEMP),
           (KEY_CHANNEL, Json.num (ps[i].channel)),
           (KEY_VALUE, Json.str (fmt2 v))]) ∧
      ∃ pre d1 d2, fmt2 v = String.mk (pre ++ ['.', d1, d2]) ∧
        ('.' ∈ pre → False) ∧ d1.isDigit = true ∧ d2.isDigit = true) ∧
    (read ps[i].channel = .err →
      (Main.tempPayload (Main.read_probes read ps))[i]? =
        some (Json.obj
          [(KEY_EVENT_TYPE, Json.num EVENT_TEMP),
           (KEY_CHANNEL, Json.num (ps[i].channel)),
           (KEY_VALUE, Json.str "null")])) := by
  have hg : ps[i]? = some ps[i] := List.getElem?_eq_getElem hi
  refine ⟨by simp [Main.tempPayload_eq_map, Main.read_probes], ?_, ?_⟩
  · intro v hok
    refine ⟨?_, fmt2_shape v⟩
    rw [Main.tempPayload_eq_map, List.getElem?_map, Main.read_probes,
      List.getElem?_map, hg]
    simp [hok]
  · intro herr
    rw [Main.tempPayload_eq_map, List.getElem?_map, Main.read_probes,
      List.getElem?_map, hg]
    simp [herr]

/-- C6 witness: one channel reading 21.53. -/
theorem C6_channel_completeness_witness :
    (Main.tempPayload (Main.read_probes (fun _ => Outcome.ok 2153)
        [⟨1, none, false⟩])).length = 1 ∧
    (Main.tempPayload (Main.read_probes (fun _ => Outcome.ok 2153)
        [⟨1, none, false⟩]))[0]? =
      some (Json.obj
        [(KEY_EVENT_TYPE, Json.num EVENT_TEMP),
         (KEY_CHANNEL, Json.num 1),
         (KEY_VALUE, Json.str (fmt2 2153))]) := by
  have h := C6_channel_completeness (fun _ => Outcome.ok 2153) [⟨1, none, false⟩] 0
    (by decide)
  exact ⟨h.1, (h.2.1 2153 rfl).1⟩

/-- Decoding the records of a 0-0-13 Temp payload recovers every probe's
channel and meta type in order. -/
theorem decodeRecords_dev13 (ps : List Dev13.Probe) :
    decodeRecords (Dev13.tempPayload ps) =
      some (ps.map (fun p => TempRec.mk EVENT_TEMP p.channel
        (Json.str (match p.error, p.val with
          | false, some v => fmt2 v
          | _, _ => "null")) p.meta_type)) := by
  induction ps with
  | nil => rfl
  | cons p ps ih =>
    have e : Dev13.tempPayload (p :: ps) =
        Json.obj
          [(KEY_EVENT_TYPE, Json.num EVENT_TEMP),
           (KEY_CHANNEL, Json.num p.channel),
           (KEY_VALUE, Json.str (match p.error, p.val with
             | false, some v => fmt2 v
             | _, _ => "null")),
           (KEY_META, Json.num p.meta_type)] :: Dev13.tempPayload ps := rfl
    rw [e, decodeRecords, ih]
    rfl

/-- C9: encoding a Temp payload for the 0-0-13 host's probe list and then
decoding the serialized text yields exactly one record per probe, with the
channel ids and meta-type tags of the originals in the same order. -/
theorem C9_roundtrip (ps : List Dev13.Probe) :
    ∃ recs, decodeTempPayload (Dev13.encodeTempPayload ps) = some recs ∧
      recs.length = ps.length ∧
      recs.map TempRec.channel = ps.map (fun p => (p.channel : Int)) ∧
      recs.map TempRec.metaType = ps.map (fun p => (p.meta_type : Int)) := by
  have hsafe : Safe (Json.arr (Dev13.tempPayload ps)) := by
    rw [Safe]
    exact dev13_payload_safe ps
  have hparse := parseJson_printJson (Json.arr (Dev13.tempPayload ps)) hsafe
  refine ⟨ps.map (fun p => TempRec.mk EVENT_TEMP p.channel
      (Json.str (match p.error, p.val with
        | false, some v => fmt2 v
        | _, _ => "null")) p.meta_type), ?_, ?_, ?_, ?_⟩
  · rw [decodeTempPayload, Dev13.encodeTempPayload, hparse]
    exact decodeRecords_dev13 ps
  · simp
  · simp [List.map_map]
  · simp [List.map_map]

/-- C10: a second valid Ack arriving while the session is already Connected
keeps the state Connected but overwrites peerAddress with the new
datagram's source IP, so every report a later tick emits targets the most
recent Ack sender. -/
theorem C10_rebind (raw : List Nat) (addr : String) (st : Main.State)
    (chars : List Char) (kvs : List (String × Json))
    (hst : st.state = HState.connected)
    (hdec : utf8Decode raw = some chars)
    (hjson : parseJsonStr (String.mk chars) = some (Json.obj kvs))
    (hver : jLookup kvs KEY_VERSION = some (Json.str RDP_VERSION_1_0))
    (hser : jLookup kvs KEY_SERIAL = some (Json.str Main.HOST_SERIAL))
    (hack : jLookup kvs KEY_EVENT_TYPE = some (Json.str (intStr EVENT_ACK))) :
    ∃ st', Main.read_incoming raw addr st = .ok st' ∧
      st'.state = HState.connected ∧
      st'.server_address = some (addr, SERVER_PORT) ∧
      ∀ read now t m, NetAction.sendTemps t m ∈ (Main.tick read now st').2 →
        t = (addr, SERVER_PORT) := by
  refine ⟨_, Main.read_incoming_ack raw addr st chars kvs hdec hjson hver hser hack,
    rfl, rfl, ?_⟩
  intro read now t m hmem
  have h := Main.tick_temps_target read now _ t m hmem
  simp only [Option.some.injEq] at h
  exact h.symm

/-- C10 witness: a session already bound to 10.0.0.5 receives a second Ack
from 10.0.0.9. -/
theorem C10_rebind_witness :
    ∃ st', Main.read_incoming (asciiBytes ackTextMain) "10.0.0.9"
        { state := .connected, send_count := 5,
          server_address := some ("10.0.0.5", 5050),
          last_sync_time := 0, last_temp_time := 3, probes := [] } = .ok st' ∧
      st'.state = HState.connected ∧
      st'.server_address = some ("10.0.0.9", SERVER_PORT) ∧
      ∀ read now t m, NetAction.sendTemps t m ∈ (Main.tick read now st').2 →
        t = ("10.0.0.9", SERVER_PORT) :=
  C10_rebind (asciiBytes ackTextMain) "10.0.0.9"
    { state := .connected, send_count := 5, server_address := some ("10.0.0.5", 5050),
      last_sync_time := 0, last_temp_time := 3, probes := [] }
    ackTextMain.data
    [(KEY_VERSION, Json.str "RDP_1.0"), (KEY_SERIAL, Json.str "424242"),
     (KEY_EVENT_TYPE, Json.str "2")]
    rfl rfl rfl rfl rfl rfl

end RDP

